import Mathlib

/-!
Shallow embedding of the ark-cli `main.rs` core: the entry enrichment and
presentation pipeline of `Command::List`, and the backup orchestrator of
`Command::Backup`.  External collaborators (the index, the attribute store,
`discover_roots`, `storages_exists`, the filesystem, chrono formatting) are
modelled as oracle parameters, matching the specification's interface view.
Rust machine strings are modelled as Lean `String`; Rust `str::len` (a UTF-8
byte count) is modelled by `String.utf8ByteSize`, while Rust's formatting
width (which counts characters) is modelled by `String.length`.
-/

/-- The `EntryOutput` enum from `models::entry` as used in `main.rs`:
the four output modes of the `list` command. -/
inductive EntryOutput where
  | Link
  | Id
  | Path
  | Both
deriving DecidableEq

/-- The `Sort` enum from `models::sort` (named `SortOrder` here because `Sort`
is a Lean keyword): requested sort direction of the `list` command. -/
inductive SortOrder where
  | Asc
  | Desc
deriving DecidableEq

/-- The `StorageEntry` struct of `main.rs` (lines 38-45): one display record
of the listing pipeline.  `ResourceId` and `PathBuf` values only ever reach
this struct through their rendered string forms, so they are modelled as
`String`. -/
structure StorageEntry where
  path : Option String
  resource : Option String
  content : Option String
  tags : Option (List String)
  scores : Option Nat
  datetime : Option String
deriving DecidableEq

/-- One `(path, resource)` value of the index snapshot (`path2id` pair).
`id` is the string form of `resource.id`; `modifiedStr` is the string the
external chrono library renders for `resource.modified` with the fixed
format `%b %e %H:%M %Y` (formatting itself is an external collaborator). -/
structure ResourceRec where
  id : String
  modifiedStr : String
deriving DecidableEq

/-- The three independent boolean enrichment flags of the `list` command. -/
structure ListOpts where
  tags : Bool
  scores : Bool
  modified : Bool

/-- The output-mode resolution match of `main.rs` lines 83-94: an explicit
mode with both flags unset is used as-is, otherwise the two booleans select
the mode, and an explicit mode combined with any set boolean is the
configuration error of line 90. -/
def entryOutputResolution :
    Option EntryOutput → Bool → Bool → Except String EntryOutput
  | some e, false, false => .ok e
  | none, true, false => .ok .Id
  | none, false, true => .ok .Path
  | none, true, true => .ok .Both
  | none, false, false => .ok .Link
  | some _, true, _ => .error "You can't use both entry and entry_id or entry_path"
  | some _, false, true => .error "You can't use both entry and entry_id or entry_path"

/-- Rust `u32::from_str`: an optional leading `+`, then one or more ASCII
digits, with the value required to fit in 32 bits; anything else is a parse
error. -/
def parseU32 (s : String) : Option Nat :=
  let t := match s.data with
    | '+' :: rest => rest
    | cs => cs
  if t.isEmpty then none
  else if t.all (·.isDigit) then
    let n := t.foldl (fun acc c => acc * 10 + (c.toNat - 48)) 0
    if n < 2 ^ 32 then some n else none
  else none

/-- The scores enrichment of `main.rs` lines 121-133: the stored value is
absent ⇒ `0`, otherwise parsed as `u32` with `0` on any parse failure. -/
def scoreValue (v : Option String) : Nat :=
  (v.map fun s => (parseU32 s).getD 0).getD 0

/-- The tags enrichment of `main.rs` lines 103-119: the stored value is
absent ⇒ the empty list, otherwise split on `,` with each piece trimmed. -/
def tagsValue (v : Option String) : List String :=
  (v.map fun s => (s.splitOn ",").map (·.trim)).getD []

/-- The body of the `filter_map` closure of `main.rs` lines 102-176:
enrich one `(path, resource)` snapshot pair into a `StorageEntry`, or drop
it (`None`) when `Link` mode cannot open or fully read the backing file.
`readFile` is the filesystem oracle (`File::open` + `read_to_string`,
`none` meaning either step failed); `readStorageValue` is the
`read_storage_value` oracle taking the attribute category and the resource
id string. -/
def processEntry (readFile : String → Option String)
    (readStorageValue : String → String → Option String)
    (mode : EntryOutput) (opts : ListOpts)
    (path : String) (res : ResourceRec) : Option StorageEntry :=
  let tags := if opts.tags then some (tagsValue (readStorageValue "tags" res.id)) else none
  let scores := if opts.scores then some (scoreValue (readStorageValue "scores" res.id)) else none
  let datetime := if opts.modified then some res.modifiedStr else none
  match mode with
  | .Both => some ⟨some path, some res.id, none, tags, scores, datetime⟩
  | .Path => some ⟨some path, none, none, tags, scores, datetime⟩
  | .Id => some ⟨none, some res.id, none, tags, scores, datetime⟩
  | .Link =>
      match readFile path with
      | some contents => some ⟨none, none, some contents, tags, scores, datetime⟩
      | none => none

/-- The full `filter_map ... collect` of `main.rs` lines 96-177 over the
index snapshot. -/
def buildEntries (readFile : String → Option String)
    (readStorageValue : String → String → Option String)
    (mode : EntryOutput) (opts : ListOpts)
    (snapshot : List (String × ResourceRec)) : List StorageEntry :=
  snapshot.filterMap fun pr => processEntry readFile readStorageValue mode opts pr.1 pr.2

/-- Rust `Option<String>::cmp` as a boolean `≤`: `None` sorts before any
`Some`, and two `Some`s compare by the string order (both Rust's `str` order
and Lean's `String` order are lexicographic by code point, which for UTF-8
agrees with Rust's byte order). -/
def dtLe : Option String → Option String → Bool
  | none, _ => true
  | some _, none => false
  | some a, some b => decide (a ≤ b)

/-- The ascending comparator of `main.rs` line 181: `a.datetime.cmp(&b.datetime)`. -/
def ascLe (a b : StorageEntry) : Bool := dtLe a.datetime b.datetime

/-- The descending comparator of `main.rs` line 185: `b.datetime.cmp(&a.datetime)`. -/
def descLe (a b : StorageEntry) : Bool := dtLe b.datetime a.datetime

/-- The sort step of `main.rs` lines 179-188.  Rust `Vec::sort_by` is a
stable sort by the given comparator; it is modelled by the stable
`List.mergeSort` with the corresponding boolean `≤`. -/
def applySort : Option SortOrder → List StorageEntry → List StorageEntry
  | none, es => es
  | some .Asc, es => es.mergeSort ascLe
  | some .Desc, es => es.mergeSort descLe

/-- The retain predicate of `main.rs` lines 191-197: the entry's tag list
is present and contains the filter tag exactly (`Vec::contains`). -/
def entryMatchesFilter (t : String) (e : StorageEntry) : Bool :=
  (e.tags.map fun tags => tags.contains t).getD false

/-- The filter step of `main.rs` lines 190-198 (`Vec::retain` keeps order,
i.e. it is `List.filter`). -/
def applyFilter : Option String → List StorageEntry → List StorageEntry
  | none, es => es
  | some t, es => es.filter (entryMatchesFilter t)

/-- The `no_tags` placeholder constant of `main.rs` line 200. -/
def noTags : String := "NO_TAGS"

/-- The `no_scores` placeholder constant of `main.rs` line 201. -/
def noScores : String := "NO_SCORE"

/-- The little-endian-to-big-endian decimal digit expansion backing Rust's
`u32` `Display`: the decimal digits of `n`, most significant first. -/
def decDigits (n : Nat) : List Char :=
  if _h : n < 10 then [Nat.digitChar n]
  else decDigits (n / 10) ++ [Nat.digitChar (n % 10)]
decreasing_by exact Nat.div_lt_self (by omega) (by omega)

/-- Rust `u32::to_string` / `format!` of a score: its decimal digits. -/
def u32Display (n : Nat) : String := String.mk (decDigits n)

/-- The rendered tags field (`main.rs` lines 322-327 and 228-245):
`NO_TAGS` for an empty list, otherwise the tags joined by `", "`. -/
def tagsRendered (ts : List String) : String :=
  if ts.isEmpty then noTags else String.intercalate ", " ts

/-- The rendered score field (`main.rs` lines 336-341 and 247-265):
`NO_SCORE` for the value `0`, otherwise its decimal string. -/
def scoresRendered (s : Nat) : String :=
  if s = 0 then noScores else u32Display s

/-- Byte length of the rendered path field, `0` when absent. -/
def pathLenB (e : StorageEntry) : Nat :=
  (e.path.map (·.utf8ByteSize)).getD 0

/-- Byte length of the rendered id field, `0` when absent. -/
def idLenB (e : StorageEntry) : Nat :=
  (e.resource.map (·.utf8ByteSize)).getD 0

/-- Byte length of the rendered tags field, `0` when absent. -/
def tagsLenB (e : StorageEntry) : Nat :=
  (e.tags.map fun ts => (tagsRendered ts).utf8ByteSize).getD 0

/-- Byte length of the rendered score field, `0` when absent. -/
def scoresLenB (e : StorageEntry) : Nat :=
  (e.scores.map fun s => (scoresRendered s).utf8ByteSize).getD 0

/-- Byte length of the rendered datetime field, `0` when absent. -/
def datetimeLenB (e : StorageEntry) : Nat :=
  (e.datetime.map (·.utf8ByteSize)).getD 0

/-- Byte length of the content field, `0` when absent. -/
def contentLenB (e : StorageEntry) : Nat :=
  (e.content.map (·.utf8ByteSize)).getD 0

/-- The `longest_path` computation of `main.rs` lines 203-213:
`map` to `path.display().to_string().len()` (or `0`), then
`max_by(cmp).unwrap_or(0)`. -/
def longestPath (es : List StorageEntry) : Nat :=
  ((es.map fun e =>
    match e.path with
    | some p => p.utf8ByteSize
    | none => 0).max?).getD 0

/-- The `longest_id` fold of `main.rs` lines 215-226. -/
def longestId (es : List StorageEntry) : Nat :=
  es.foldl (fun acc e =>
    match e.resource with
    | some r => if r.utf8ByteSize > acc then r.utf8ByteSize else acc
    | none => acc) 0

/-- The `longest_tags` fold of `main.rs` lines 228-245: the rendered tags
string's byte length (`NO_TAGS` when empty), `0` when tags are absent. -/
def longestTags (es : List StorageEntry) : Nat :=
  es.foldl (fun acc e =>
    let l := tagsLenB e
    if l > acc then l else acc) 0

/-- The `longest_scores` fold of `main.rs` lines 247-265. -/
def longestScores (es : List StorageEntry) : Nat :=
  es.foldl (fun acc e =>
    let l := scoresLenB e
    if l > acc then l else acc) 0

/-- The `longest_datetime` fold of `main.rs` lines 267-279. -/
def longestDatetime (es : List StorageEntry) : Nat :=
  es.foldl (fun acc e =>
    let l := datetimeLenB e
    if l > acc then l else acc) 0

/-- The `longest_content` fold of `main.rs` lines 281-293. -/
def longestContent (es : List StorageEntry) : Nat :=
  es.foldl (fun acc e =>
    let l := contentLenB e
    if l > acc then l else acc) 0

/-- The six computed column widths of one listing invocation. -/
structure ColumnWidths where
  content : Nat
  path : Nat
  id : Nat
  tags : Nat
  scores : Nat
  datetime : Nat

/-- All six width computations bundled. -/
def computeWidths (es : List StorageEntry) : ColumnWidths :=
  ⟨longestContent es, longestPath es, longestId es, longestTags es,
    longestScores es, longestDatetime es⟩

/-- Rust `format!("{:width$}", s)` for a string: left-justified, padded
with spaces up to `w` characters (Rust's formatting width counts
characters, not bytes). -/
def padTo (s : String) (w : Nat) : String :=
  s ++ String.mk (List.replicate (w - s.length) ' ')

/-- The row rendering loop body of `main.rs` lines 295-358: starting from
an empty string, each present field is appended in the fixed order content,
path, id, tags, scores, datetime, padded to its column width and followed
by one space. -/
def renderRow (w : ColumnWidths) (e : StorageEntry) : String :=
  let output := ""
  let output := match e.content with
    | some content => output ++ padTo content w.content ++ " "
    | none => output
  let output := match e.path with
    | some path => output ++ padTo path w.path ++ " "
    | none => output
  let output := match e.resource with
    | some resource => output ++ padTo resource w.id ++ " "
    | none => output
  let output := match e.tags with
    | some tags => output ++ padTo (tagsRendered tags) w.tags ++ " "
    | none => output
  let output := match e.scores with
    | some scores => output ++ padTo (scoresRendered scores) w.scores ++ " "
    | none => output
  match e.datetime with
  | some datetime => output ++ padTo datetime w.datetime ++ " "
  | none => output

/-- The printed report: one `println!` line per surviving entry, with the
widths computed from the surviving entries (`main.rs` lines 203-359). -/
def renderReport (es : List StorageEntry) : List String :=
  es.map (renderRow (computeWidths es))

/-- The whole `Command::List` arm (after root resolution): resolve the
output mode (a conflict aborts before any entry processing), build the
entries from the snapshot, sort, filter, and render. -/
def listCommand (readFile : String → Option String)
    (readStorageValue : String → String → Option String)
    (snapshot : List (String × ResourceRec)) (entry : Option EntryOutput)
    (entryId entryPath : Bool) (opts : ListOpts)
    (sortOpt : Option SortOrder) (filterOpt : Option String) :
    Except String (List String) :=
  match entryOutputResolution entry entryId entryPath with
  | .error e => .error e
  | .ok mode =>
      .ok (renderReport (applyFilter filterOpt (applySort sortOpt
        (buildEntries readFile readStorageValue mode opts snapshot))))

/-- Modelled from the spec for the C7 comparison: the column width the
specification describes for the tags column, the maximum over all entries
of the character count (not the byte count) of the final rendered tags
string. -/
def tagsCharWidth (es : List StorageEntry) : Nat :=
  (es.map fun e => ((e.tags.map tagsRendered).getD "").length).foldl Nat.max 0

/-- The entry whose single tag is the two-byte, one-character string `é`,
separating byte counts from character counts. -/
def sampleUnicodeEntry : StorageEntry :=
  ⟨none, none, none, some ["é"], none, none⟩

/-- Modelled from the spec for the C8 comparison: the padded rendered
fields of one row, in the fixed column order content, path, id, tags,
scores, datetime, keeping only the fields present on the entry. -/
def rowFieldsSpec (w : ColumnWidths) (e : StorageEntry) : List String :=
  ([(e.content, w.content), (e.path, w.path), (e.resource, w.id),
    (e.tags.map tagsRendered, w.tags), (e.scores.map scoresRendered, w.scores),
    (e.datetime, w.datetime)] : List (Option String × Nat)).filterMap
    fun fw => fw.1.map fun s => padTo s fw.2

/-- The `.ark-backups` base directory constant of `main.rs` line 35. -/
def arkBackupsPath : String := ".ark-backups"

/-- The `roots` manifest file name constant of `main.rs` line 36. -/
def rootsCfgFilename : String := "roots"

/-- The environment one `Command::Backup` invocation runs against: the
external collaborators and filesystem answers it consumes.  `homeDir` is
`home_dir()`; `now` is `timestamp().as_secs()`; `backupDirExists` is the
`backup_dir.is_dir()` answer; `discoveredRoots` is the `discover_roots`
result; `storagesExists` the per-root storage check; the remaining fields
tell whether `create_dir_all`, `File::create` of the manifest, each
`writeln!` of a root line, and each `dir::copy` succeed. -/
structure BackupEnv where
  homeDir : Option String
  now : Nat
  backupDirExists : Bool
  discoveredRoots : Except String (List String)
  storagesExists : String → Bool
  createDirOk : Bool
  manifestCreateOk : Bool
  writeLineOk : String → Bool
  copyOk : Nat → String → Bool

/-- One observable step of a backup run, in program order: user-facing
prints and filesystem effects of `main.rs` lines 361-429. -/
inductive BackupEvent where
  | printWaitASecond
  | printPreparing
  | printInvalid (roots : List String)
  | printNothingToBackup
  | createDir (dir : String)
  | createManifest (file : String)
  | writeManifestLine (root : String) (ok : Bool)
  | printPerforming
  | printRootHeader (root : String)
  | copyAttempt (i : Nat) (root : String) (dest : String) (ok : Bool)
  | printCopyFailed (i : Nat)
  | printBackupCreated (dir : String)
deriving DecidableEq

/-- How one backup run ends: a fatal `Err` bubbled to `main`'s result, a
benign `std::process::exit(0)` (the collision guard or the empty-roots
early exit), or normal completion. -/
inductive BackupOutcome where
  | fatal (msg : String)
  | earlyExit
  | success
deriving DecidableEq

/-- The per-root copy loop of `main.rs` lines 407-427 (`enumerate` +
`for_each`): for each valid root, in order, print its header, attempt the
copy into the decimal-index destination, and report a failure without
stopping the loop. -/
def copyLoop (dir : String) (copyOk : Nat → String → Bool) :
    Nat → List String → List BackupEvent
  | _, [] => []
  | i, root :: rest =>
    let ok := copyOk i root
    .printRootHeader root :: .copyAttempt i root (dir ++ "/" ++ Nat.repr i) ok ::
      ((if ok then [] else [.printCopyFailed i]) ++ copyLoop dir copyOk (i + 1) rest)

/-- The whole `Command::Backup` arm of `main.rs` lines 361-430 as an event
trace plus an outcome.  Note that the source discards the result of each
manifest `writeln!` (`let _ = ... .map_err(...)` on lines 399-404), so a
failed line write is traced but never aborts the run. -/
def backupCommand (env : BackupEnv) : List BackupEvent × BackupOutcome :=
  match env.homeDir with
  | none => ([], .fatal "Couldn't retrieve home directory!")
  | some home =>
    let backupDir := home ++ "/" ++ arkBackupsPath ++ "/" ++ Nat.repr env.now
    if env.backupDirExists then
      ([.printWaitASecond], .earlyExit)
    else
      match env.discoveredRoots with
      | .error e => ([.printPreparing], .fatal e)
      | .ok roots =>
        let parts := roots.partition env.storagesExists
        let valid := parts.1
        let invalid := parts.2
        let evs := [BackupEvent.printPreparing] ++
          (if invalid.isEmpty then [] else [BackupEvent.printInvalid invalid])
        if valid.isEmpty then
          (evs ++ [.printNothingToBackup], .earlyExit)
        else if !env.createDirOk then
          (evs, .fatal "Couldn't create backup directory!")
        else if !env.manifestCreateOk then
          (evs ++ [.createDir backupDir], .fatal "Couldn't backup roots config!")
        else
          (evs ++ [.createDir backupDir,
              .createManifest (backupDir ++ "/" ++ rootsCfgFilename)] ++
            valid.map (fun r => .writeManifestLine r (env.writeLineOk r)) ++
            [.printPerforming] ++
            copyLoop backupDir env.copyOk 0 valid ++
            [.printBackupCreated backupDir], .success)

/-- The subsequence of copy attempts of a backup trace, as
`(index, root, destination, succeeded)` tuples. -/
def copyAttemptsOf : List BackupEvent → List (Nat × String × String × Bool)
  | [] => []
  | .copyAttempt i r d ok :: rest => (i, r, d, ok) :: copyAttemptsOf rest
  | _ :: rest => copyAttemptsOf rest

/-- C2: the output-mode resolution satisfies exactly the decision table of
`main.rs` lines 83-94 — an explicit mode with both flags false is used
as-is, the four flag combinations map to `Id`, `Path`, `Both`, `Link`, and
an explicit mode together with at least one set flag is the configuration
error, which makes the whole `list` command fail before any entry
processing (for every snapshot and every oracle). -/
theorem c2_entry_output_resolution :
    (∀ m : EntryOutput, entryOutputResolution (some m) false false = .ok m) ∧
    entryOutputResolution none true false = .ok .Id ∧
    entryOutputResolution none false true = .ok .Path ∧
    entryOutputResolution none true true = .ok .Both ∧
    entryOutputResolution none false false = .ok .Link ∧
    (∀ (m : EntryOutput) (b1 b2 : Bool), b1 = true ∨ b2 = true →
      entryOutputResolution (some m) b1 b2 =
        .error "You can't use both entry and entry_id or entry_path") ∧
    (∀ (m : EntryOutput) (b1 b2 : Bool)
      (readFile : String → Option String)
      (readStorageValue : String → String → Option String)
      (snapshot : List (String × ResourceRec)) (opts : ListOpts)
      (sortOpt : Option SortOrder) (filterOpt : Option String),
      b1 = true ∨ b2 = true →
      listCommand readFile readStorageValue snapshot (some m) b1 b2 opts
          sortOpt filterOpt =
        .error "You can't use both entry and entry_id or entry_path") := by
  refine ⟨fun m => rfl, rfl, rfl, rfl, rfl, ?_, ?_⟩
  · rintro m b1 b2 (rfl | rfl)
    · cases b2 <;> rfl
    · cases b1 <;> rfl
  · rintro m b1 b2 rf rs snap opts so fo (rfl | rfl)
    · cases b2 <;> rfl
    · cases b1 <;> rfl

/-- Witness for C2 at a concrete conflicting input. -/
theorem c2_entry_output_resolution_witness :
    entryOutputResolution (some .Link) true false =
      .error "You can't use both entry and entry_id or entry_path" :=
  c2_entry_output_resolution.2.2.2.2.2.1 .Link true false (Or.inl rfl)

/-- C1: in `Link` mode, a snapshot pair whose file cannot be opened or
read yields no `StorageEntry` at all, and its failure leaves the entries
built from every other snapshot pair unchanged. -/
theorem c1_link_unreadable_drops_entry (readFile : String → Option String)
    (readStorageValue : String → String → Option String) (opts : ListOpts)
    (p : String) (r : ResourceRec) (pre post : List (String × ResourceRec))
    (h : readFile p = none) :
    processEntry readFile readStorageValue .Link opts p r = none ∧
    buildEntries readFile readStorageValue .Link opts (pre ++ (p, r) :: post) =
      buildEntries readFile readStorageValue .Link opts pre ++
        buildEntries readFile readStorageValue .Link opts post := by
  have hp : processEntry readFile readStorageValue .Link opts p r = none := by
    simp [processEntry, h]
  refine ⟨hp, ?_⟩
  simp only [buildEntries, List.filterMap_append, List.filterMap_cons, hp]

/-- Witness for C1: a file the filesystem cannot read produces no entry. -/
theorem c1_link_unreadable_drops_entry_witness :
    processEntry (fun _ => none) (fun _ _ => none) .Link ⟨false, false, false⟩
      "/gone" ⟨"id1", "Jan  1 00:00 2024"⟩ = none :=
  (c1_link_unreadable_drops_entry (fun _ => none) (fun _ _ => none)
    ⟨false, false, false⟩ "/gone" ⟨"id1", "Jan  1 00:00 2024"⟩ [] [] rfl).1

/-- C3: with an active filter tag `t`, an entry survives the filter step
if and only if it was in the input and its tags field is present and
contains `t` exactly; entries without a tags field never survive; and if
nothing matches, the filter produces the empty list, which renders as
empty output rather than an error. -/
theorem c3_filter_retain (t : String) (es : List StorageEntry) :
    (∀ e : StorageEntry,
      e ∈ applyFilter (some t) es ↔
        e ∈ es ∧ ∃ ts, e.tags = some ts ∧ t ∈ ts) ∧
    (∀ e ∈ es, e.tags = none → e ∉ applyFilter (some t) es) ∧
    ((∀ e ∈ es, entryMatchesFilter t e = false) →
      applyFilter (some t) es = []) ∧
    renderReport [] = [] := by
  refine ⟨?_, ?_, ?_, rfl⟩
  · intro e
    simp only [applyFilter, List.mem_filter, entryMatchesFilter]
    refine and_congr_right fun _ => ?_
    cases htags : e.tags with
    | none => simp
    | some ts => simp [List.contains_iff_exists_mem_beq, beq_iff_eq, eq_comm]
  · intro e _ htags
    simp [applyFilter, List.mem_filter, entryMatchesFilter, htags]
  · intro h
    simpa [applyFilter] using h

/-- Witness for C3: an entry without a tags field is dropped by an active
filter, so the result is empty (and still renders). -/
theorem c3_filter_retain_witness :
    applyFilter (some "work") [(⟨none, some "id1", none, none, none, none⟩ : StorageEntry)] = [] :=
  (c3_filter_retain "work" [⟨none, some "id1", none, none, none, none⟩]).2.2.1
    (by decide)

/-- The datetime-key comparator is transitive. -/
theorem dtLe_trans {x y z : Option String} :
    dtLe x y = true → dtLe y z = true → dtLe x z = true := by
  intro h1 h2
  match x, y, z with
  | none, _, _ => rfl
  | some a, none, _ => exact absurd h1 (by simp [dtLe])
  | some a, some b, none => exact absurd h2 (by simp [dtLe])
  | some a, some b, some c =>
      simp only [dtLe, decide_eq_true_eq] at h1 h2 ⊢
      exact le_trans h1 h2

/-- The datetime-key comparator is total. -/
theorem dtLe_total (x y : Option String) : dtLe x y || dtLe y x := by
  match x, y with
  | none, _ => rfl
  | some a, none => rfl
  | some a, some b =>
      rcases le_total a b with h | h <;>
        simp [dtLe, h]

/-- The datetime-key comparator is antisymmetric. -/
theorem dtLe_antisymm {x y : Option String} :
    dtLe x y = true → dtLe y x = true → x = y := by
  intro h1 h2
  match x, y with
  | none, none => rfl
  | none, some b => exact absurd h2 (by simp [dtLe])
  | some a, none => exact absurd h1 (by simp [dtLe])
  | some a, some b =>
      simp only [dtLe, decide_eq_true_eq] at h1 h2
      exact congrArg some (le_antisymm h1 h2)

/-- C9: the optional sort is the stable sort keyed on the rendered
modification-time string, with absent strings ordered first as by Rust's
`Option` ordering — the ascending result is a permutation of the input,
sorted by the key, and preserves the relative order of key-ties; and for
any snapshot where modification time is present on every entry and all
rendered timestamps are distinct, the descending sort is exactly the
reverse of the ascending sort. -/
theorem c9_sort_desc_is_reverse_of_asc :
    (∀ es : List StorageEntry,
      (applySort (some .Asc) es).Perm es ∧
      (applySort (some .Asc) es).Pairwise (fun a b => ascLe a b = true) ∧
      (∀ a b : StorageEntry, List.Sublist [a, b] es → ascLe a b = true →
        List.Sublist [a, b] (applySort (some .Asc) es))) ∧
    (∀ es : List StorageEntry, (∀ e ∈ es, e.datetime.isSome) →
      (es.map StorageEntry.datetime).Nodup →
      applySort (some .Desc) es = (applySort (some .Asc) es).reverse) := by
  have ascTrans : ∀ a b c : StorageEntry,
      ascLe a b → ascLe b c → ascLe a c := fun _ _ _ => dtLe_trans
  have ascTotal : ∀ a b : StorageEntry, ascLe a b || ascLe b a :=
    fun a b => dtLe_total _ _
  have descTrans : ∀ a b c : StorageEntry,
      descLe a b → descLe b c → descLe a c := fun _ _ _ h1 h2 => dtLe_trans h2 h1
  have descTotal : ∀ a b : StorageEntry, descLe a b || descLe b a :=
    fun a b => dtLe_total _ _
  constructor
  · intro es
    refine ⟨List.mergeSort_perm es ascLe,
      List.sorted_mergeSort ascTrans ascTotal es, ?_⟩
    intro a b hsub hab
    exact List.sublist_mergeSort ascTrans ascTotal (by simp [hab]) hsub
  · intro es _ hnd
    have pasc := List.mergeSort_perm es ascLe
    have pdesc := List.mergeSort_perm es descLe
    have sasc := List.sorted_mergeSort ascTrans ascTotal es
    have sdesc := List.sorted_mergeSort descTrans descTotal es
    have srev : (es.mergeSort ascLe).reverse.Pairwise
        (fun a b => descLe a b = true) := by
      rw [List.pairwise_reverse]
      exact sasc.imp fun h => h
    have hperm : (es.mergeSort descLe).Perm (es.mergeSort ascLe).reverse :=
      pdesc.trans (pasc.symm.trans (es.mergeSort ascLe).reverse_perm.symm)
    have keyInj : ∀ a ∈ es, ∀ b ∈ es, a.datetime = b.datetime → a = b :=
      fun _ ha _ hb h => List.inj_on_of_nodup_map hnd ha hb h
    have main : es.mergeSort descLe = (es.mergeSort ascLe).reverse := by
      refine hperm.eq_of_sorted ?_ sdesc srev
      intro a b ha hb h1 h2
      have ha2 : a ∈ es := pdesc.subset ha
      have hb2 : b ∈ es := pasc.subset (List.mem_reverse.1 hb)
      exact keyInj a ha2 b hb2 (dtLe_antisymm h2 h1)
    exact main

/-- Witness for C9 at two concrete entries with distinct timestamps. -/
theorem c9_sort_desc_is_reverse_of_asc_witness :
    applySort (some .Desc)
        [⟨none, none, none, none, none, some "Feb  2 10:00 2024"⟩,
         ⟨none, none, none, none, none, some "Jan  1 09:00 2024"⟩] =
      (applySort (some .Asc)
        [⟨none, none, none, none, none, some "Feb  2 10:00 2024"⟩,
         ⟨none, none, none, none, none, some "Jan  1 09:00 2024"⟩]).reverse :=
  c9_sort_desc_is_reverse_of_asc.2
    [⟨none, none, none, none, none, some "Feb  2 10:00 2024"⟩,
     ⟨none, none, none, none, none, some "Jan  1 09:00 2024"⟩]
    (by decide) (by decide)

/-- C8: every report line is rendered in the fixed column order content,
path, id, tags, scores, datetime, keeping only the fields present on the
entry, each left-justified and padded to its column width and followed by
exactly one separating space, one row per line and no header row. -/
theorem c8_row_rendering :
    (∀ (w : ColumnWidths) (e : StorageEntry),
      renderRow w e = String.join ((rowFieldsSpec w e).map fun s => s ++ " ")) ∧
    (∀ es : List StorageEntry,
      renderReport es = es.map fun e =>
        String.join ((rowFieldsSpec (computeWidths es) e).map fun s => s ++ " ")) := by
  have h1 : ∀ (w : ColumnWidths) (e : StorageEntry),
      renderRow w e = String.join ((rowFieldsSpec w e).map fun s => s ++ " ") := by
    intro w e
    obtain ⟨p, r, c, t, s, d⟩ := e
    cases c <;> cases p <;> cases r <;> cases t <;> cases s <;> cases d <;>
      simp [renderRow, rowFieldsSpec, String.join, String.append_assoc]
  exact ⟨h1, fun es => by simp [renderReport, h1]⟩

/-- `Nat.max` of a larger left argument. -/
theorem natMaxEqLeft {a b : Nat} (h : b ≤ a) : Nat.max a b = a := by
  show (if a ≤ b then b else a) = a
  split <;> omega

/-- `Nat.max` of a larger right argument. -/
theorem natMaxEqRight {a b : Nat} (h : a ≤ b) : Nat.max a b = b := by
  show (if a ≤ b then b else a) = b
  split <;> omega

/-- `Nat.max` with zero on the left. -/
theorem natZeroMax (a : Nat) : Nat.max 0 a = a := natMaxEqRight (Nat.zero_le a)

/-- An if-max step equals `Nat.max`. -/
theorem ifGtEqMax (a b : Nat) : (if b > a then b else a) = Nat.max a b := by
  rcases Nat.lt_or_ge a b with h | h
  · rw [if_pos h, natMaxEqRight (Nat.le_of_lt h)]
  · rw [if_neg (by omega), natMaxEqLeft h]

/-- The initial accumulator bounds a max fold from below. -/
theorem foldlMaxInitLe : ∀ (ns : List Nat) (a : Nat), a ≤ ns.foldl Nat.max a := by
  intro ns
  induction ns with
  | nil => exact fun a => Nat.le_refl a
  | cons m tl ih =>
      intro a
      exact le_trans (Nat.le_max_left a m) (ih (Nat.max a m))

/-- Every member bounds a max fold from below. -/
theorem foldlMaxMemLe {n : Nat} :
    ∀ (ns : List Nat) (a : Nat), n ∈ ns → n ≤ ns.foldl Nat.max a := by
  intro ns
  induction ns with
  | nil => intro a h; cases h
  | cons m tl ih =>
      intro a h
      rcases List.mem_cons.1 h with rfl | h
      · exact le_trans (Nat.le_max_right a n) (foldlMaxInitLe tl (Nat.max a n))
      · exact ih (Nat.max a m) h

/-- A max fold returns its initial accumulator or a member. -/
theorem foldlMaxMem :
    ∀ (ns : List Nat) (a : Nat), ns.foldl Nat.max a = a ∨ ns.foldl Nat.max a ∈ ns := by
  intro ns
  induction ns with
  | nil => exact fun a => Or.inl rfl
  | cons m tl ih =>
      intro a
      rcases ih (Nat.max a m) with h | h
      · rcases Nat.le_total a m with hm | hm
        · exact Or.inr (by
            rw [List.foldl_cons, h, natMaxEqRight hm]
            exact List.mem_cons_self m tl)
        · exact Or.inl (by rw [List.foldl_cons, h, natMaxEqLeft hm])
      · exact Or.inr (List.mem_cons_of_mem m h)

/-- The max fold of a rendered-length function over the entry list is an
upper bound of all its values and, on a non-empty list, is attained. -/
theorem entryFoldMaxSpec (f : StorageEntry → Nat) (es : List StorageEntry) :
    (∀ e ∈ es, f e ≤ (es.map f).foldl Nat.max 0) ∧
    (es ≠ [] → ∃ e ∈ es, f e = (es.map f).foldl Nat.max 0) := by
  constructor
  · intro e he
    exact foldlMaxMemLe (es.map f) 0 (List.mem_map_of_mem f he)
  · intro hne
    rcases foldlMaxMem (es.map f) 0 with h | h
    · obtain ⟨e0, tl, rfl⟩ : ∃ e0 tl, es = e0 :: tl := by
        cases es with
        | nil => exact absurd rfl hne
        | cons a l => exact ⟨a, l, rfl⟩
      have hle : f e0 ≤ ((e0 :: tl).map f).foldl Nat.max 0 :=
        foldlMaxMemLe _ 0 (List.mem_map_of_mem f (List.mem_cons_self e0 tl))
      exact ⟨e0, List.mem_cons_self e0 tl, by omega⟩
    · obtain ⟨e, he, heq⟩ := List.mem_map.1 h
      exact ⟨e, he, heq⟩

/-- The `longest_path` computation in max-fold form. -/
theorem longestPathEq (es : List StorageEntry) :
    longestPath es = (es.map pathLenB).foldl Nat.max 0 := by
  have hf : (fun e : StorageEntry =>
      match e.path with
      | some p => p.utf8ByteSize
      | none => 0) = pathLenB := by
    funext e
    cases hp : e.path <;> simp [pathLenB, hp]
  simp only [longestPath, hf]
  cases hm : es.map pathLenB with
  | nil => rfl
  | cons a tl =>
      rw [List.max?_cons', Option.getD_some, List.foldl_cons, natZeroMax]

/-- The `longest_id` computation in max-fold form. -/
theorem longestIdEq (es : List StorageEntry) :
    longestId es = (es.map idLenB).foldl Nat.max 0 := by
  rw [List.foldl_map]
  simp only [longestId]
  congr 1
  funext acc e
  cases hr : e.resource with
  | none => simp [idLenB, hr]
  | some r =>
      simp only [idLenB, hr, Option.map_some', Option.getD_some]
      exact ifGtEqMax acc r.utf8ByteSize

/-- The `longest_tags` computation in max-fold form. -/
theorem longestTagsEq (es : List StorageEntry) :
    longestTags es = (es.map tagsLenB).foldl Nat.max 0 := by
  rw [List.foldl_map]
  simp only [longestTags]
  congr 1
  funext acc e
  exact ifGtEqMax acc (tagsLenB e)

/-- The `longest_scores` computation in max-fold form. -/
theorem longestScoresEq (es : List StorageEntry) :
    longestScores es = (es.map scoresLenB).foldl Nat.max 0 := by
  rw [List.foldl_map]
  simp only [longestScores]
  congr 1
  funext acc e
  exact ifGtEqMax acc (scoresLenB e)

/-- The `longest_datetime` computation in max-fold form. -/
theorem longestDatetimeEq (es : List StorageEntry) :
    longestDatetime es = (es.map datetimeLenB).foldl Nat.max 0 := by
  rw [List.foldl_map]
  simp only [longestDatetime]
  congr 1
  funext acc e
  exact ifGtEqMax acc (datetimeLenB e)

/-- The `longest_content` computation in max-fold form. -/
theorem longestContentEq (es : List StorageEntry) :
    longestContent es = (es.map contentLenB).foldl Nat.max 0 := by
  rw [List.foldl_map]
  simp only [longestContent]
  congr 1
  funext acc e
  exact ifGtEqMax acc (contentLenB e)

/-- C7 (amended): for every column, the computed width equals the maximum
over all surviving entries of the UTF-8 byte count (Rust `str::len`) of
that field's final rendered string — not its character count; hence every
rendered field's byte count is at most that width, and on a non-empty
entry sequence at least one entry's rendered field attains it exactly.
For ASCII-only rendered strings byte count and character count coincide. -/
theorem c7_column_widths_amended (es : List StorageEntry) :
    (longestContent es = (es.map contentLenB).foldl Nat.max 0 ∧
      (∀ e ∈ es, contentLenB e ≤ longestContent es) ∧
      (es ≠ [] → ∃ e ∈ es, contentLenB e = longestContent es)) ∧
    (longestPath es = (es.map pathLenB).foldl Nat.max 0 ∧
      (∀ e ∈ es, pathLenB e ≤ longestPath es) ∧
      (es ≠ [] → ∃ e ∈ es, pathLenB e = longestPath es)) ∧
    (longestId es = (es.map idLenB).foldl Nat.max 0 ∧
      (∀ e ∈ es, idLenB e ≤ longestId es) ∧
      (es ≠ [] → ∃ e ∈ es, idLenB e = longestId es)) ∧
    (longestTags es = (es.map tagsLenB).foldl Nat.max 0 ∧
      (∀ e ∈ es, tagsLenB e ≤ longestTags es) ∧
      (es ≠ [] → ∃ e ∈ es, tagsLenB e = longestTags es)) ∧
    (longestScores es = (es.map scoresLenB).foldl Nat.max 0 ∧
      (∀ e ∈ es, scoresLenB e ≤ longestScores es) ∧
      (es ≠ [] → ∃ e ∈ es, scoresLenB e = longestScores es)) ∧
    (longestDatetime es = (es.map datetimeLenB).foldl Nat.max 0 ∧
      (∀ e ∈ es, datetimeLenB e ≤ longestDatetime es) ∧
      (es ≠ [] → ∃ e ∈ es, datetimeLenB e = longestDatetime es)) := by
  refine ⟨?_, ?_, ?_, ?_, ?_, ?_⟩
  · rw [longestContentEq]
    exact ⟨rfl, (entryFoldMaxSpec contentLenB es).1,
      fun h => (entryFoldMaxSpec contentLenB es).2 h⟩
  · rw [longestPathEq]
    exact ⟨rfl, (entryFoldMaxSpec pathLenB es).1,
      fun h => (entryFoldMaxSpec pathLenB es).2 h⟩
  · rw [longestIdEq]
    exact ⟨rfl, (entryFoldMaxSpec idLenB es).1,
      fun h => (entryFoldMaxSpec idLenB es).2 h⟩
  · rw [longestTagsEq]
    exact ⟨rfl, (entryFoldMaxSpec tagsLenB es).1,
      fun h => (entryFoldMaxSpec tagsLenB es).2 h⟩
  · rw [longestScoresEq]
    exact ⟨rfl, (entryFoldMaxSpec scoresLenB es).1,
      fun h => (entryFoldMaxSpec scoresLenB es).2 h⟩
  · rw [longestDatetimeEq]
    exact ⟨rfl, (entryFoldMaxSpec datetimeLenB es).1,
      fun h => (entryFoldMaxSpec datetimeLenB es).2 h⟩

/-- Counterexample for C7 as stated: with the single entry whose one tag
is the one-character, two-byte string `é`, the computed tags width is the
byte count `2`, while the maximum character count of the rendered tags
strings is `1`, so the computed width is not the character-count maximum
and no row attains it in characters. -/
theorem c7_column_widths_counterexample :
    longestTags [sampleUnicodeEntry] = 2 ∧
    tagsCharWidth [sampleUnicodeEntry] = 1 ∧
    longestTags [sampleUnicodeEntry] ≠ tagsCharWidth [sampleUnicodeEntry] := by
  refine ⟨by decide, by decide, by decide⟩

/-- Witness for C7 (amended) on a concrete non-empty entry list. -/
theorem c7_column_widths_amended_witness :
    ∃ e ∈ [sampleUnicodeEntry], tagsLenB e = longestTags [sampleUnicodeEntry] :=
  (c7_column_widths_amended [sampleUnicodeEntry]).2.2.2.1.2.2 (by decide)

/-- A decimal expansion is never empty. -/
theorem decDigits_ne_nil (n : Nat) : decDigits n ≠ [] := by
  rw [decDigits]
  split <;> simp

/-- Every character of a decimal expansion is an ASCII digit. -/
theorem decDigits_isDigit : ∀ n : Nat, ∀ c ∈ decDigits n, c.isDigit = true := by
  have base : ∀ m : Nat, m < 10 → (Nat.digitChar m).isDigit = true := by decide
  intro n
  induction n using Nat.strong_induction_on with
  | _ n ih =>
    intro c hc
    rw [decDigits] at hc
    split at hc
    · next h =>
        rw [List.mem_singleton] at hc
        exact hc ▸ base n h
    · next h =>
        rcases List.mem_append.1 hc with hc | hc
        · exact ih (n / 10) (Nat.div_lt_self (by omega) (by omega)) c hc
        · rw [List.mem_singleton] at hc
          exact hc ▸ base (n % 10) (Nat.mod_lt n (by omega))
    
/-- Only zero has the decimal expansion `['0']`. -/
theorem decDigits_singleton_zero (n : Nat) (h : decDigits n = ['0']) : n = 0 := by
  have base : ∀ m : Nat, m < 10 → Nat.digitChar m = '0' → m = 0 := by decide
  rw [decDigits] at h
  split at h
  · next hlt =>
      simp only [List.cons.injEq, and_true] at h
      exact base n hlt h
  · next hlt =>
      exfalso
      have hlen := congrArg List.length h
      simp only [List.length_append, List.length_singleton, List.length_cons,
        List.length_nil] at hlen
      have : decDigits (n / 10) = [] := List.length_eq_zero.1 (by omega)
      exact decDigits_ne_nil (n / 10) this

/-- A rendered decimal number is never the `NO_SCORE` placeholder. -/
theorem u32Display_ne_noScores (n : Nat) : u32Display n ≠ noScores := by
  intro h
  have hdata : decDigits n = "NO_SCORE".data := congrArg String.data h
  have hmem : 'N' ∈ decDigits n := by
    rw [hdata]
    decide
  have := decDigits_isDigit n 'N' hmem
  exact absurd this (by decide)

/-- A nonzero number never renders as the string `0`. -/
theorem u32Display_ne_zero_string {n : Nat} (h : n ≠ 0) : u32Display n ≠ "0" := by
  intro heq
  exact h (decDigits_singleton_zero n (congrArg String.data heq))

/-- C10: the rendered score field is the `NO_SCORE` placeholder exactly
when the score value is `0`; an absent score record, the stored string
`0`, and any unparsable stored string all produce the score value `0` and
hence the same rendering; and the numeric string `0` never appears as a
rendered score. -/
theorem c10_score_zero_is_no_score :
    (∀ n : Nat, scoresRendered n = noScores ↔ n = 0) ∧
    scoreValue none = 0 ∧
    scoreValue (some "0") = 0 ∧
    (∀ s : String, parseU32 s = none → scoreValue (some s) = 0) ∧
    (∀ n : Nat, scoresRendered n ≠ "0") := by
  refine ⟨?_, rfl, by decide, ?_, ?_⟩
  · intro n
    constructor
    · intro h
      by_contra hn
      rw [scoresRendered, if_neg hn] at h
      exact u32Display_ne_noScores n h
    · rintro rfl
      rfl
  · intro s h
    simp [scoreValue, h]
  · intro n
    by_cases hn : n = 0
    · subst hn
      decide
    · rw [scoresRendered, if_neg hn]
      exact u32Display_ne_zero_string hn

/-- Witness for C10: an unparsable stored score degrades to the value `0`. -/
theorem c10_score_zero_is_no_score_witness :
    scoreValue (some "not a number") = 0 :=
  c10_score_zero_is_no_score.2.2.2.1 "not a number" (by decide)

/-- Copy attempts distribute over trace concatenation. -/
theorem copyAttemptsOf_append (l1 l2 : List BackupEvent) :
    copyAttemptsOf (l1 ++ l2) = copyAttemptsOf l1 ++ copyAttemptsOf l2 := by
  induction l1 with
  | nil => rfl
  | cons e tl ih => cases e <;> simp [copyAttemptsOf, ih]

/-- Manifest-line events contribute no copy attempts. -/
theorem copyAttemptsOf_writeLines (roots : List String) (f : String → Bool) :
    copyAttemptsOf (roots.map fun r => .writeManifestLine r (f r)) = [] := by
  induction roots with
  | nil => rfl
  | cons r tl ih => simp [copyAttemptsOf, ih]

/-- The invalid-roots report contributes no copy attempts. -/
theorem copyAttemptsOf_invalidReport (c : Prop) [Decidable c] (l : List String) :
    copyAttemptsOf (if c then [] else [.printInvalid l]) = [] := by
  split <;> rfl

/-- The copy loop's attempts are exactly one per root, in order, with the
running index as both the enumeration index and the decimal destination
name. -/
theorem copyAttemptsOf_copyLoop (dir : String) (c : Nat → String → Bool) :
    ∀ (i : Nat) (roots : List String),
      copyAttemptsOf (copyLoop dir c i roots) =
        (List.enumFrom i roots).map fun p =>
          (p.1, p.2, dir ++ "/" ++ Nat.repr p.1, c p.1 p.2) := by
  intro i roots
  induction roots generalizing i with
  | nil => rfl
  | cons root rest ih =>
      cases hok : c i root <;>
        simp [copyLoop, copyAttemptsOf, copyAttemptsOf_append, hok, ih,
          List.enumFrom]

/-- A failed copy at enumeration index `j` leaves its failure report in
the copy loop's trace. -/
theorem copyLoop_reports_failures (dir : String) (c : Nat → String → Bool) :
    ∀ (i : Nat) (roots : List String) (j : Nat) (root : String),
      (j, root) ∈ List.enumFrom i roots → c j root = false →
      BackupEvent.printCopyFailed j ∈ copyLoop dir c i roots := by
  intro i roots
  induction roots generalizing i with
  | nil => intro j root h; cases h
  | cons r rest ih =>
      intro j root h hf
      simp only [List.enumFrom, List.mem_cons, Prod.mk.injEq] at h
      rcases h with ⟨rfl, rfl⟩ | h
      · simp [copyLoop, hf]
      · simp only [copyLoop, List.mem_cons]
        refine Or.inr (Or.inr ?_)
        rw [List.mem_append]
        exact Or.inr (ih (i + 1) j root h hf)

/-- C5: when the computed backup target directory already exists, the run
prints the one-second collision warning and exits with success before
discovering roots (the trace and outcome do not depend on `discoveredRoots`
at all), without creating a directory, writing a manifest, or copying
anything — so a second invocation within the same wall-clock second leaves
the filesystem exactly as the first left it. -/
theorem c5_backup_collision_guard (env : BackupEnv) (hd : String)
    (hh : env.homeDir = some hd) (hex : env.backupDirExists = true) :
    backupCommand env = ([.printWaitASecond], .earlyExit) := by
  obtain ⟨hD, now, bde, dr, se, cd, mc, wl, co⟩ := env
  simp only at hh hex
  subst hh hex
  rfl

/-- Witness for C5 at a concrete environment. -/
theorem c5_backup_collision_guard_witness :
    backupCommand ⟨some "/h", 3, true, .ok ["/a"], fun _ => true, true, true,
        fun _ => true, fun _ _ => true⟩ = ([.printWaitASecond], .earlyExit) :=
  c5_backup_collision_guard _ "/h" rfl rfl

/-- C4: in a successful backup setup (home directory available, no
collision, roots discovered, at least one valid root, directory and
manifest creation succeeding), the run always completes successfully;
exactly one copy is attempted per valid root, in original discovery order,
into destination subdirectories named by the decimal indices 0, 1, 2, …
— regardless of which copies fail — and the final backup directory path is
still reported. -/
theorem c4_backup_copy_failures_nonfatal (env : BackupEnv) (hd : String)
    (roots : List String)
    (hh : env.homeDir = some hd) (hg : env.backupDirExists = false)
    (hr : env.discoveredRoots = .ok roots)
    (hv : roots.filter env.storagesExists ≠ [])
    (hc : env.createDirOk = true) (hm : env.manifestCreateOk = true) :
    (backupCommand env).2 = .success ∧
    copyAttemptsOf (backupCommand env).1 =
      (roots.filter env.storagesExists).enum.map (fun p =>
        (p.1, p.2,
          hd ++ "/" ++ arkBackupsPath ++ "/" ++ Nat.repr env.now ++ "/" ++ Nat.repr p.1,
          env.copyOk p.1 p.2)) ∧
    BackupEvent.printBackupCreated
        (hd ++ "/" ++ arkBackupsPath ++ "/" ++ Nat.repr env.now) ∈
      (backupCommand env).1 ∧
    (∀ (j : Nat) (root : String),
      (j, root) ∈ (roots.filter env.storagesExists).enum →
      env.copyOk j root = false →
      BackupEvent.printCopyFailed j ∈ (backupCommand env).1) := by
  obtain ⟨hD, now, bde, dr, se, cd, mc, wl, co⟩ := env
  simp only at hh hg hr hv hc hm ⊢
  subst hh hg hr hc hm
  have hvalid : (roots.partition se).1 = roots.filter se :=
    by rw [List.partition_eq_filter_filter]
  have hne : (roots.filter se).isEmpty = false := by
    cases hfil : roots.filter se with
    | nil => exact absurd hfil hv
    | cons a l => rfl
  simp only [backupCommand, hvalid, hne, Bool.false_eq_true, if_false,
    Bool.not_true, if_true]
  refine ⟨by trivial, ?_, ?_, ?_⟩
  · simp [copyAttemptsOf_append, copyAttemptsOf, copyAttemptsOf_invalidReport,
      copyAttemptsOf_writeLines, copyAttemptsOf_copyLoop, List.enum]
  · simp [List.mem_append]
  · intro j root hmem hf
    have hin := copyLoop_reports_failures
      (hd ++ "/" ++ arkBackupsPath ++ "/" ++ Nat.repr now) co 0
      (roots.filter se) j root (by simpa [List.enum] using hmem) hf
    simp [List.mem_append, hin]

/-- Witness for C4: three valid roots with the middle copy failing — all
three attempts still happen, in order, into `0`, `1`, `2`. -/
theorem c4_backup_copy_failures_nonfatal_witness :
    copyAttemptsOf (backupCommand ⟨some "/h", 3, false, .ok ["/a", "/b", "/c"],
        fun _ => true, true, true, fun _ => true, fun i _ => !(i == 1)⟩).1 =
      [(0, "/a", "/h/.ark-backups/3/0", true),
       (1, "/b", "/h/.ark-backups/3/1", false),
       (2, "/c", "/h/.ark-backups/3/2", true)] := by
  have h := c4_backup_copy_failures_nonfatal
    ⟨some "/h", 3, false, .ok ["/a", "/b", "/c"], fun _ => true, true, true,
      fun _ => true, fun i _ => !(i == 1)⟩
    "/h" ["/a", "/b", "/c"] rfl rfl rfl (by decide) rfl rfl
  rw [h.2.1]
  decide

/-- C6 evaluated at a failing input: with three valid roots and the
manifest line write for `/b` failing, the run does not abort — the failed
write is merely recorded (the source drops the `writeln!` result on lines
399-404), every root is still copied afterwards, and the run completes
successfully with the final report. -/
theorem c6_manifest_write_failure_not_fatal :
    backupCommand ⟨some "/h", 3, false, .ok ["/a", "/b", "/c"], fun _ => true,
        true, true, fun r => !(r == "/b"), fun _ _ => true⟩ =
      ([.printPreparing, .createDir "/h/.ark-backups/3",
        .createManifest "/h/.ark-backups/3/roots",
        .writeManifestLine "/a" true, .writeManifestLine "/b" false,
        .writeManifestLine "/c" true, .printPerforming,
        .printRootHeader "/a", .copyAttempt 0 "/a" "/h/.ark-backups/3/0" true,
        .printRootHeader "/b", .copyAttempt 1 "/b" "/h/.ark-backups/3/1" true,
        .printRootHeader "/c", .copyAttempt 2 "/c" "/h/.ark-backups/3/2" true,
        .printBackupCreated "/h/.ark-backups/3"], .success) := by
  decide
